import Mathlib

/-!
Verification development for the discrete-event network simulator
(`des/`, `network_simulation/` of the repository).  Python code is shallowly
embedded: simulated clock values (Python floats) are modelled as exact
rationals `ℚ`, Python ints as `ℕ`/`ℤ`, dicts as insertion-ordered association
lists, sets as `Finset ℕ`, and fallible code (assertion failures, attribute
errors) returns `Option`.
-/

/-! ## `des/des.py` and `des/priority_queue.py`

`DESEvent` is `@dataclass(order=True)` with `seq: int = field(compare=False)`
and `action: Callable = field(compare=False)`; the generated comparison uses
the `time` field only.  The action callable is modelled by an opaque label
`act : ℕ`; what an action does when executed (the events it schedules) is
supplied by an environment `ActionEnv`.
-/

structure DESEvent where
  time : ℚ
  seq : ℕ
  act : ℕ
deriving DecidableEq

instance : Inhabited DESEvent := ⟨⟨0, 0, 0⟩⟩

/-- The `__lt__` generated by `@dataclass(order=True)` on `DESEvent`:
`seq` and `action` carry `compare=False`, so only `time` takes part. -/
def eventLt (e1 e2 : DESEvent) : Bool :=
  decide (e1.time < e2.time)

/-- Lexicographic comparison on `(time, seq)` as the spec describes it
("Comparison is lexicographic on (time, seq)"); written from the spec, for
comparison against `eventLt`, the comparison generated from the source. -/
def eventLtSpecLex (e1 e2 : DESEvent) : Bool :=
  decide (e1.time < e2.time) || (decide (e1.time = e2.time) && decide (e1.seq < e2.seq))

/-- CPython `heapq._siftdown(heap, startpos, pos)`: `newitem` (initially
`heap[pos]`) bubbles towards the root while it compares `<` its parent.
The recursion is driven by a fuel argument (callers supply `pos + 1`, which
always suffices since the parent index `(pos-1)/2` drops by at least one per
step); exhausted fuel writes `newitem` at the current position exactly like
the loop exit. -/
def siftdownLoop : ℕ → List DESEvent → ℕ → ℕ → DESEvent → List DESEvent
  | 0, heap, _, pos, newitem => heap.set pos newitem
  | fuel + 1, heap, startpos, pos, newitem =>
    if startpos < pos then
      let parentpos := (pos - 1) / 2
      let parent := heap.getD parentpos default
      if eventLt newitem parent then
        siftdownLoop fuel (heap.set pos parent) startpos parentpos newitem
      else
        heap.set pos newitem
    else
      heap.set pos newitem

/-- The child index CPython `heapq._siftup` follows: the right child is taken
when it exists and the left child is not `<` it. -/
def pickChild (heap : List DESEvent) (endpos childpos : ℕ) : ℕ :=
  if childpos + 1 < endpos ∧
      ¬ eventLt (heap.getD childpos default) (heap.getD (childpos + 1) default) = true then
    childpos + 1
  else
    childpos

/-- CPython `heapq._siftup` main loop: children are moved up until a leaf is
reached, then `newitem` is written there; the returned index is where
`newitem` was written (CPython then calls `_siftdown` from there).  Fuel as in
`siftdownLoop`; callers supply `endpos`, which always suffices. -/
def siftupLoop : ℕ → List DESEvent → ℕ → ℕ → DESEvent → List DESEvent × ℕ
  | 0, heap, _, pos, newitem => (heap.set pos newitem, pos)
  | fuel + 1, heap, endpos, pos, newitem =>
    if 2 * pos + 1 < endpos then
      let c := pickChild heap endpos (2 * pos + 1)
      siftupLoop fuel (heap.set pos (heap.getD c default)) endpos c newitem
    else
      (heap.set pos newitem, pos)

/-- CPython `heapq._siftup(heap, pos)` (loop followed by the final
`_siftdown(heap, startpos, pos)`). -/
def siftup (heap : List DESEvent) (pos : ℕ) : List DESEvent :=
  let newitem := heap.getD pos default
  let r := siftupLoop heap.length heap heap.length pos newitem
  siftdownLoop (r.2 + 1) r.1 pos r.2 newitem

/-- CPython `heapq.heappush`: append, then `_siftdown(heap, 0, len-1)`.
This is `MinValuePriorityQueue.enqueue`. -/
def heappush (heap : List DESEvent) (item : DESEvent) : List DESEvent :=
  siftdownLoop (heap.length + 1) (heap ++ [item]) 0 heap.length item

/-- CPython `heapq.heappop`: pop the last element, move it to the root and
sift up; `none` models the `IndexError` on an empty heap.  This is
`MinValuePriorityQueue.dequeue`. -/
def heappop (heap : List DESEvent) : Option (DESEvent × List DESEvent) :=
  match heap with
  | [] => none
  | _ :: _ =>
    let lastelt := heap.getLastD default
    let rest := heap.dropLast
    match rest with
    | [] => some (lastelt, [])
    | _ :: _ => some (rest.getD 0 default, siftup (rest.set 0 lastelt) 0)

/-- What an action (an opaque label) schedules when executed: a list of
`(delay, action-label)` pairs handed to `schedule_event`. -/
abbrev ActionEnv := ℕ → List (ℚ × ℕ)

/-- `DiscreteEventSimulator` state.  `executed` is a ghost trace of the events
the run loop has executed, in execution order.  `end_time` does not exist in
`src/des/des.py` even though `stats.py` and `simulator_creator.py` read
`scheduler.end_time`; it is modelled from the spec ("On termination, set
`end_time ← current_time`") and is `none` until a run terminates. -/
structure DiscreteEventSimulator where
  current_time : ℚ
  event_queue : List DESEvent
  seq_counter : ℕ
  end_time : Option ℚ
  executed : List DESEvent
deriving DecidableEq

/-- `DiscreteEventSimulator.schedule_event`: `assert delay >= 0` (modelled as
`none` on failure), then enqueue at `current_time + delay` with the next
sequence number. -/
def schedule_event (sim : DiscreteEventSimulator) (delay : ℚ) (act : ℕ) :
    Option DiscreteEventSimulator :=
  if 0 ≤ delay then
    some { sim with
            event_queue := heappush sim.event_queue ⟨sim.current_time + delay, sim.seq_counter, act⟩,
            seq_counter := sim.seq_counter + 1 }
  else
    none

/-- Schedule each `(delay, action)` pair in order (the scheduling effect of one
executed action body). -/
def scheduleAll (sim : DiscreteEventSimulator) :
    List (ℚ × ℕ) → Option DiscreteEventSimulator
  | [] => some sim
  | (d, a) :: rest =>
    match schedule_event sim d a with
    | none => none
    | some s => scheduleAll s rest

/-- `DiscreteEventSimulator.run(until=...)`: repeatedly `dequeue`; if `until`
is given and the event's time exceeds it, re-enqueue the event, set
`current_time` to `until` and break; otherwise advance `current_time` to the
event time and execute the action (modelled by scheduling the pairs the
environment assigns to its label).  `fuel` bounds the number of iterations
(`none` = the loop did not finish within the fuel); when the queue empties the
spec-modelled `end_time` is set to `current_time`. -/
def runAux (env : ActionEnv) (untilOpt : Option ℚ) :
    ℕ → DiscreteEventSimulator → Option DiscreteEventSimulator
  | 0, _ => none
  | fuel + 1, sim =>
    match heappop sim.event_queue with
    | none => some { sim with end_time := some sim.current_time }
    | some (e, rest) =>
      match untilOpt with
      | some u =>
        if u < e.time then
          some { sim with event_queue := heappush rest e, current_time := u }
        else
          match scheduleAll { sim with
                                event_queue := rest,
                                current_time := e.time,
                                executed := sim.executed ++ [e] } (env e.act) with
          | none => none
          | some s2 => runAux env untilOpt fuel s2
      | none =>
        match scheduleAll { sim with
                              event_queue := rest,
                              current_time := e.time,
                              executed := sim.executed ++ [e] } (env e.act) with
        | none => none
        | some s2 => runAux env untilOpt fuel s2

/-- An environment of actions that schedule nothing. -/
def inertEnv : ActionEnv := fun _ => []

/-- Four events at the same time `1.0`, enqueued in seq order 0,1,2,3 — the
queue built by four `schedule_event(1.0, ...)` calls from time 0 — then run
with no bound. -/
def fifoProbeSim : Option DiscreteEventSimulator :=
  runAux inertEnv none 9
    { current_time := 0,
      event_queue :=
        heappush (heappush (heappush (heappush [] ⟨1, 0, 0⟩) ⟨1, 1, 1⟩) ⟨1, 2, 2⟩) ⟨1, 3, 3⟩,
      seq_counter := 4,
      end_time := none,
      executed := [] }

/-! ## `network_simulation/ip.py` -/

/-- `IPAddress`: four octets.  Octet range validation (`0..255`) is performed
by the Python parser; here validity appears as hypotheses where it matters. -/
structure IPAddress where
  a : ℕ
  b : ℕ
  c : ℕ
  d : ℕ
deriving DecidableEq

/-- `IPAddress.to_int`: big-endian `(a << 24) | (b << 16) | (c << 8) | d`. -/
def IPAddress.to_int (ip : IPAddress) : ℕ :=
  (ip.a <<< 24) ||| (ip.b <<< 16) ||| (ip.c <<< 8) ||| ip.d

/-- `IPAddress.from_int`. -/
def IPAddress.from_int (v : ℕ) : IPAddress :=
  ⟨(v >>> 24) &&& 255, (v >>> 16) &&& 255, (v >>> 8) &&& 255, v &&& 255⟩

/-- `IPPrefix._mask_from_prefix` (the source name carries a leading underscore
and ends unluckily for Lean identifiers, hence the rename). -/
def maskFromPrefixLen (prefix_len : ℕ) : ℕ :=
  if prefix_len = 0 then 0 else (0xFFFFFFFF <<< (32 - prefix_len)) &&& 0xFFFFFFFF

/-- `IPPrefix` (source class name `IPPrefix`): normalized network address plus
prefix length. -/
structure IPPrefixT where
  network : IPAddress
  prefix_len : ℕ
deriving DecidableEq

/-- The content of a raw `"A.B.C.D/N"` key of `ip_forward_table` (the table is
keyed by the unparsed string; parsing happens per lookup). -/
structure PrefixStr where
  addr : IPAddress
  len : ℕ
deriving DecidableEq

/-- `IPPrefix.from_string`: mask the written address down to the prefix
length and store the normalized network. -/
def IPPrefixT.from_string (ps : PrefixStr) : IPPrefixT :=
  ⟨IPAddress.from_int (ps.addr.to_int &&& maskFromPrefixLen ps.len), ps.len⟩

/-- `IPPrefix.contains(ip)`: `(ip & mask) == (network & mask)`. -/
def IPPrefixT.contains (p : IPPrefixT) (ip : IPAddress) : Bool :=
  decide (ip.to_int &&& maskFromPrefixLen p.prefix_len
    = p.network.to_int &&& maskFromPrefixLen p.prefix_len)

/-! ## `network_simulation/message.py` -/

inductive Protocol where
  | TCP
  | UDP
  | CONTROL
deriving DecidableEq

/-- `Protocol.name` as rendered by `FiveTuple.__str__`. -/
def Protocol.nameStr : Protocol → String
  | .TCP => "TCP"
  | .UDP => "UDP"
  | .CONTROL => "CONTROL"

/-- `FiveTuple`.  The source stores IPs as the values handed in by
`Host.send_to_ip` (dotted strings / `IPAddress`); both are parsed to the same
address by `IPPrefix.contains`, so the parsed address is stored here. -/
structure FiveTuple where
  src_ip : IPAddress
  dst_ip : IPAddress
  src_protocol_port : ℕ
  dst_protocol_port : ℕ
  protocol : Protocol
deriving DecidableEq

/-- Dotted rendering of an address, as `str(IPAddress)` produces. -/
def IPAddress.render (ip : IPAddress) : String :=
  toString ip.a ++ "." ++ toString ip.b ++ "." ++ toString ip.c ++ "." ++ toString ip.d

/-- `FiveTuple.__str__`: `"src:sport -> dst:dport (PROTO)"`. -/
def FiveTuple.render (ft : FiveTuple) : String :=
  ft.src_ip.render ++ ":" ++ toString ft.src_protocol_port ++ " -> "
    ++ ft.dst_ip.render ++ ":" ++ toString ft.dst_protocol_port
    ++ " (" ++ ft.protocol.nameStr ++ ")"

/-- `FiveTuple.__hash__` is `xxhash.xxh64(str(self)).intdigest()` — a pure
function of the rendered string.  The xxh64 digest itself is kept abstract as
a parameter `h`; every theorem holds for an arbitrary digest function. -/
def fiveTupleHash (h : String → ℕ) (ft : FiveTuple) : ℕ :=
  h ft.render

/-- `Message` (field `brith_time` keeps the source's spelling). -/
structure Message where
  id : ℕ
  sender_id : String
  five_tuple : Option FiveTuple
  size_bytes : ℕ
  brith_time : ℚ
  content : String
  ttl : ℤ
  path_length : ℕ
  verbose_path : List String
  delivered : Bool
  dropped : Bool
  lost : Bool
  arrival_time : Option ℚ
deriving DecidableEq

/-- `Message.is_expired(current_time, max_path)`:
`(current_time - brith_time) > ttl or path_length > max_path`. -/
def Message.is_expired (m : Message) (current_time : ℚ) (max_path : ℕ) : Bool :=
  decide ((current_time - m.brith_time) > (m.ttl : ℚ)) || decide (m.path_length > max_path)

/-! ## `network_simulation/link.py`

Nodes attached to a link are identified by opaque ids `ℕ`.  `transmit`
returns the updated link, the delay handed to
`scheduler.schedule_event(arrival_time - now, deliver)`, and the id of the
destination node whose `post` the delivery event will invoke; `none` models
an assertion failure (missing endpoint, foreign sender, failed link).
-/

structure Link where
  bandwidth_bps : ℚ
  propagation_time : ℚ
  next_available_time : ℚ × ℚ
  node1 : Option ℕ
  node2 : Option ℕ
  failed : Bool
  accumulated_transmitting_time : ℚ
  accumulated_bytes_transmitted : ℕ
deriving DecidableEq

/-- `next_available_time[i]` for `i ∈ {0, 1}`. -/
def Link.nextAvailAt (l : Link) (i : ℕ) : ℚ :=
  if i = 0 then l.next_available_time.1 else l.next_available_time.2

/-- Write `next_available_time[i]`. -/
def Link.setAvailAt (l : Link) (i : ℕ) (v : ℚ) : ℚ × ℚ :=
  if i = 0 then (v, l.next_available_time.2) else (l.next_available_time.1, v)

/-- `Link.transmit(message, sender)` at scheduler time `now`. -/
def Link.transmit (l : Link) (message : Message) (sender : ℕ) (now : ℚ) :
    Option (Link × ℚ × ℕ) :=
  match l.node1, l.node2 with
  | some n1, some n2 =>
    if sender = n1 ∨ sender = n2 then
      if l.failed then none
      else
        let dst := if sender = n1 then n2 else n1
        let link_index : ℕ := if sender = n1 then 0 else 1
        let actual_start_time := max now (l.nextAvailAt link_index)
        let serialization_duration := (message.size_bytes : ℚ) * 8 / l.bandwidth_bps
        let finish_serialization_time := actual_start_time + serialization_duration
        let arrival_time := finish_serialization_time + l.propagation_time
        some ({ l with
                  next_available_time := l.setAvailAt link_index finish_serialization_time,
                  accumulated_transmitting_time :=
                    l.accumulated_transmitting_time + serialization_duration,
                  accumulated_bytes_transmitted :=
                    l.accumulated_bytes_transmitted + message.size_bytes },
              arrival_time - now, dst)
    else none
  | _, _ => none

/-! ## `network_simulation/network_node.py`

`ports_to_links` and `ip_forward_table` are insertion-ordered dicts, modelled
as association lists; `port_to_messages_passed` is a `defaultdict(set)`,
modelled as a total function into `Finset ℕ`.  A forwarding step returns the
updated node, the (possibly mutated) message, and `some port` when
`link.transmit` was invoked on the link attached to `port` (`none` when
nothing was transmitted); `random.sample(relevant_ports, 1)[0]` is abstracted
by a choice function `choose`, constrained in the theorems to pick an element
of its argument.
-/

structure NetworkNode where
  ports_to_links : List (ℕ × Link)
  ip_forward_table : List (PrefixStr × List ℕ)
  max_connections : ℕ
  port_to_messages_passed : ℕ → Finset ℕ
  max_path : ℕ

/-- `defaultdict(list)` write `table[prefix].append(port_id)`: append to the
existing key's list, or add a fresh key at the end. -/
def tableAppend (t : List (PrefixStr × List ℕ)) (k : PrefixStr) (p : ℕ) :
    List (PrefixStr × List ℕ) :=
  match t with
  | [] => [(k, [p])]
  | e :: rest => if e.1 = k then (e.1, e.2 ++ [p]) :: rest else e :: tableAppend rest k p

/-- `NetworkNode.set_ip_routing(ip_pfx, port_id)`: `assert` the port is
connected (`none` on failure); skip silently when the attached link is
failed, otherwise append the port under the prefix key. -/
def set_ip_routing (node : NetworkNode) (ip_pfx : PrefixStr) (port_id : ℕ) :
    Option NetworkNode :=
  match node.ports_to_links.lookup port_id with
  | none => none
  | some link =>
    if link.failed then some node
    else some { node with ip_forward_table := tableAppend node.ip_forward_table ip_pfx port_id }

/-- A sequence of `set_ip_routing` calls (route installation during topology
construction; `ports_to_links` and the links' `failed` flags are fixed
throughout, as links are created and marked failed before routes are
installed). -/
def installAll (node : NetworkNode) : List (PrefixStr × ℕ) → Option NetworkNode
  | [] => some node
  | r :: rest =>
    match set_ip_routing node r.1 r.2 with
    | none => none
    | some n2 => installAll n2 rest

/-- No forwarding-table entry refers to a port whose link is failed (every
registered port is connected to a non-failed link). -/
def routesOk (node : NetworkNode) : Prop :=
  ∀ e ∈ node.ip_forward_table, ∀ p ∈ e.2,
    ∃ l, node.ports_to_links.lookup p = some l ∧ l.failed = false

/-- `NetworkNode.handle_expired_message`. -/
def handle_expired_message (node : NetworkNode) (message : Message) :
    NetworkNode × Message × Option ℕ :=
  (node, { message with dropped := true }, none)

/-- The candidate ports of `handle_lost_message`:
`{port_id : message.id ∉ port_to_messages_passed[port_id] and not link.failed}`,
in `ports_to_links` iteration order. -/
def lostCandidates (node : NetworkNode) (message : Message) : List ℕ :=
  (node.ports_to_links.filter
    (fun pl => !(decide (message.id ∈ node.port_to_messages_passed pl.1)) && !pl.2.failed)).map
    Prod.fst

/-- `NetworkNode.handle_lost_message`. -/
def handle_lost_message (choose : List ℕ → ℕ) (node : NetworkNode) (message : Message) :
    NetworkNode × Message × Option ℕ :=
  let relevant_ports := lostCandidates node message
  match relevant_ports with
  | [] => (node, { message with dropped := true }, none)
  | _ :: _ =>
    let arbitrary_port_id := choose relevant_ports
    ({ node with
        port_to_messages_passed := fun q =>
          if q = arbitrary_port_id then
            insert message.id (node.port_to_messages_passed q)
          else
            node.port_to_messages_passed q },
      message, some arbitrary_port_id)

/-- The `(port_id, prefix_len)` pairs of `handle_regular_message` whose prefix
contains the destination, in table iteration order. -/
def relevantPortsFor (node : NetworkNode) (dst_ip : IPAddress) : List (ℕ × ℕ) :=
  node.ip_forward_table.flatMap (fun e =>
    let pr := IPPrefixT.from_string e.1
    if pr.contains dst_ip then e.2.map (fun p => (p, pr.prefix_len)) else [])

/-- `relevant_ports.sort(key=lambda x: x[1], reverse=True)` — CPython's sort
is stable, and so is insertion sort with this relation — followed by the
restriction to the longest mask length: the ECMP group. -/
def ecmpGroup (node : NetworkNode) (dst_ip : IPAddress) : List (ℕ × ℕ) :=
  let sorted := List.insertionSort (fun x y : ℕ × ℕ => y.2 ≤ x.2) (relevantPortsFor node dst_ip)
  let longest_mask_len := (sorted.headD (0, 0)).2
  sorted.filter (fun x => decide (x.2 = longest_mask_len))

/-- `port_index = hash(five_tuple) % len(best_masked_ports)`;
`best_port_id = best_masked_ports[port_index][0]`. -/
def ecmpSelect (h : String → ℕ) (node : NetworkNode) (ft : FiveTuple) : ℕ :=
  let best := ecmpGroup node ft.dst_ip
  (best.getD (fiveTupleHash h ft % best.length) (0, 0)).1

/-- `NetworkNode.handle_regular_message`; `none` models the `AttributeError`
when `five_tuple` is `None`. -/
def handle_regular_message (choose : List ℕ → ℕ) (h : String → ℕ)
    (node : NetworkNode) (message : Message) :
    Option (NetworkNode × Message × Option ℕ) :=
  match message.five_tuple with
  | none => none
  | some ft =>
    let dst_ip := ft.dst_ip
    match relevantPortsFor node dst_ip with
    | [] => some (node, { message with dropped := true }, none)
    | _ :: _ =>
      let best_port_id := ecmpSelect h node ft
      if message.id ∈ node.port_to_messages_passed best_port_id then
        some (handle_lost_message choose node { message with lost := true })
      else
        some ({ node with
                  port_to_messages_passed := fun q =>
                    if q = best_port_id then
                      insert message.id (node.port_to_messages_passed q)
                    else
                      node.port_to_messages_passed q },
              message, some best_port_id)

/-- `NetworkNode._internal_send_ip` at scheduler time `now`;
`none` models the failure of `assert not message.dropped`. -/
def internal_send_ip (choose : List ℕ → ℕ) (h : String → ℕ) (now : ℚ)
    (node : NetworkNode) (message : Message) :
    Option (NetworkNode × Message × Option ℕ) :=
  if message.dropped then none
  else if message.is_expired now node.max_path then some (handle_expired_message node message)
  else if message.lost then some (handle_lost_message choose node message)
  else handle_regular_message choose h node message

/-! ## `network_simulation/host.py` (spec-modelled send)

Every scenario in `src/scenarios/` calls `Host.send_to_ip(dst_ip, payload,
size_bytes)`, but `src/network_simulation/host.py` contains only a stale
`send_to(dst_name, ...)` written against message/node APIs that no longer
exist (`receiver_id`, `flow_id`, `forward_table`, `_internal_send`); the
current method is absent from `src/`.  It is therefore modelled from the
spec, §4.6.
-/

/-- Modelled from the spec: `Host.send_to_ip` is missing from
`src/network_simulation/host.py` (only its callers in `src/scenarios/` and
the spec describe it).  Spec §4.6: allocate an id; build a `Message` with
`sender_id = ""`, `five_tuple = (self.ip, dst_ip, 0, 0, TCP)`, `size_bytes`,
`birth_time = now`, `content = payload`, `ttl = 2000`; `path_length = 1` and
the host on `verbose_path` when verbose; append to the scheduler's message
ledger; then invoke the forwarding routine on self.  Returns the constructed
message, the ledger after the append, and the result of forwarding. -/
def Host.send_to_ip (choose : List ℕ → ℕ) (h : String → ℕ)
    (host : NetworkNode) (host_name : String) (host_ip : IPAddress) (verbose : Bool)
    (packet_id : ℕ) (now : ℚ) (ledger : List Message)
    (dst_ip : IPAddress) (payload : String) (size_bytes : ℕ) :
    Message × List Message × Option (NetworkNode × Message × Option ℕ) :=
  let message : Message :=
    { id := packet_id
      sender_id := ""
      five_tuple := some ⟨host_ip, dst_ip, 0, 0, Protocol.TCP⟩
      size_bytes := size_bytes
      brith_time := now
      content := payload
      ttl := 2000
      path_length := 1
      verbose_path := if verbose then [host_name] else []
      delivered := false
      dropped := false
      lost := false
      arrival_time := none }
  let ledger2 := ledger ++ [message]
  (message, ledger2, internal_send_ip choose h now host message)

/-! ## `network_simulation/node.py` (spec-modelled post/handle)

`src/network_simulation/node.py` is a stale revision: its `post` mutates
`message.path`, a field the current `Message` does not have (an
`AttributeError` on every call), and its `__init__` does not accept the
`verbose` argument the current `NetworkNode.__init__` passes.  The base-node
inbox contract is therefore modelled from the spec, §4.4 (its `handle`
matches the stale file's `handle_message` exactly).  `on_message` is
abstract; the processed message is returned to the caller.  The `ℕ`
components count the zero-delay `handle` events scheduled by the call.
-/

structure NodeState where
  name : String
  verbose : Bool
  inbox : List Message
deriving DecidableEq

/-- Modelled from the spec: `Node.post(message)` (current revision absent
from `src/network_simulation/node.py`, see above) — record the node on the
verbose path when verbose, append to the inbox, schedule one immediate
(delay-0) `handle`. -/
def NodeState.post (st : NodeState) (message : Message) : NodeState × ℕ :=
  let message2 :=
    if st.verbose then { message with verbose_path := message.verbose_path ++ [st.name] }
    else message
  ({ st with inbox := st.inbox ++ [message2] }, 1)

/-- `Node.handle_message` (identical in the stale `src` file and the spec):
if the inbox is non-empty, pop its head and hand it to `on_message`; schedule
one more immediate `handle` iff messages remain. -/
def NodeState.handle_message (st : NodeState) : NodeState × Option Message × ℕ :=
  match st.inbox with
  | [] => (st, none, 0)
  | m :: rest => ({ st with inbox := rest }, some m, if rest.isEmpty then 0 else 1)

/-- Drive pending `handle` events to exhaustion (the scheduler would run them
as consecutive zero-delay events): returns the final node state, the messages
handed to `on_message` in order, and the number of `handle` invocations. -/
def drainHandles : ℕ → NodeState → ℕ → NodeState × List Message × ℕ
  | 0, st, _ => (st, [], 0)
  | _ + 1, st, 0 => (st, [], 0)
  | fuel + 1, st, pending + 1 =>
    let r := st.handle_message
    let rec2 := drainHandles fuel r.1 (pending + r.2.2)
    (rec2.1, r.2.1.toList ++ rec2.2.1, rec2.2.2 + 1)

/-! ## Concrete instances used by witnesses and counterexamples -/

/-- A two-event queue (times 1 and 3, both integral so that kernel reduction
never meets rational normalization), already in heap shape. -/
def simTwoEvents : DiscreteEventSimulator :=
  { current_time := 0,
    event_queue := [⟨1, 0, 0⟩, ⟨3, 1, 1⟩],
    seq_counter := 2,
    end_time := none,
    executed := [] }

/-- The state `simTwoEvents` reaches when run to exhaustion. -/
def simTwoEventsFinal : DiscreteEventSimulator :=
  { current_time := 3,
    event_queue := [],
    seq_counter := 2,
    end_time := some 3,
    executed := [⟨1, 0, 0⟩, ⟨3, 1, 1⟩] }

/-- A queue holding a single event at time 3 (beyond the bound 2 used by the
`run(until=...)` witness). -/
def simLateEvent : DiscreteEventSimulator :=
  { current_time := 0,
    event_queue := [⟨3, 0, 0⟩],
    seq_counter := 1,
    end_time := none,
    executed := [] }

/-- A healthy link between nodes 1 and 2: 1e3 bps, 0.01 s propagation. -/
def slowLink : Link :=
  { bandwidth_bps := 1000,
    propagation_time := 1 / 100,
    next_available_time := (0, 0),
    node1 := some 1,
    node2 := some 2,
    failed := false,
    accumulated_transmitting_time := 0,
    accumulated_bytes_transmitted := 0 }

/-- A failed link between nodes 1 and 3. -/
def failedLink : Link :=
  { slowLink with node2 := some 3, failed := true }

/-- A five-tuple used by concrete messages. -/
def ftProbe : FiveTuple :=
  ⟨⟨10, 1, 1, 1⟩, ⟨10, 1, 1, 2⟩, 0, 0, Protocol.TCP⟩

/-- A fresh message (born at time 0, default ttl 2000). -/
def msgProbe : Message :=
  { id := 0
    sender_id := ""
    five_tuple := some ftProbe
    size_bytes := 500000
    brith_time := 0
    content := ""
    ttl := 2000
    path_length := 1
    verbose_path := []
    delivered := false
    dropped := false
    lost := false
    arrival_time := none }

/-- A node with one healthy port (1, to `slowLink`), one failed port (2, to
`failedLink`), and an empty forwarding table. -/
def nodeProbe : NetworkNode :=
  { ports_to_links := [(1, slowLink), (2, failedLink)],
    ip_forward_table := [],
    max_connections := 2,
    port_to_messages_passed := fun _ => ∅,
    max_path := 10 }

/-- `nodeProbe` with the routes of spec §8.4/§8.5 installed on the healthy
port: `10.0.0.0/8 → [1, 1]` (an ECMP group of two entries). -/
def nodeRouted : NetworkNode :=
  { nodeProbe with
      ip_forward_table := [(⟨⟨10, 0, 0, 0⟩, 8⟩, [1, 1])] }

/-- A deterministic stand-in for `random.sample(s, 1)[0]`. -/
def headChoose : List ℕ → ℕ := fun l => l.headD 0

/-- A concrete stand-in for the xxh64 digest. -/
def zeroHash : String → ℕ := fun _ => 0

/-- `slowLink` after one 500000-byte transmission issued at `t = 0.1` in
direction 0: serialization ends at `4000.1`. -/
def slowLinkAfterOne : Link :=
  { slowLink with
      next_available_time := (40001 / 10, 0),
      accumulated_transmitting_time := 4000,
      accumulated_bytes_transmitted := 500000 }

/-- `slowLinkAfterOne` after the second such transmission, also issued at
`t = 0.1`: serialization ends at `8000.1`. -/
def slowLinkAfterTwo : Link :=
  { slowLink with
      next_available_time := (80001 / 10, 0),
      accumulated_transmitting_time := 8000,
      accumulated_bytes_transmitted := 1000000 }

/-- `msgProbe` flagged lost. -/
def msgLost : Message :=
  { msgProbe with lost := true }

/-- The raw routing key `"10.0.0.0/8"`. -/
def routeProbe : PrefixStr :=
  ⟨⟨10, 0, 0, 0⟩, 8⟩

/-- Install `10.0.0.0/8` first on the failed port 2, then on the healthy
port 1. -/
def rsProbe : List (PrefixStr × ℕ) :=
  [(routeProbe, 2), (routeProbe, 1)]

/-- What `installAll nodeProbe rsProbe` produces: the failed port is skipped,
the healthy port is registered. -/
def nodeInstalled : NetworkNode :=
  { nodeProbe with ip_forward_table := [(routeProbe, [1])] }

/-- An empty-inbox node. -/
def nodeStateProbe : NodeState :=
  ⟨"n", false, []⟩

/-- Two distinct messages to post. -/
def msgA : Message :=
  { msgProbe with id := 1 }

/-- Second posted message. -/
def msgB : Message :=
  { msgProbe with id := 2 }

/-- `nodeStateProbe` after posting `msgA` then `msgB` at the same instant
(each post also schedules one zero-delay handle event, two in total). -/
def nodeStatePosted : NodeState :=
  ((nodeStateProbe.post msgA).1.post msgB).1

/-! ## Helper lemmas: list surgery and heap multiset preservation -/

theorem getD_set_self (l : List DESEvent) (i : ℕ) (a d : DESEvent) (h : i < l.length) :
    (l.set i a).getD i d = a := by
  induction l generalizing i with
  | nil => simp at h
  | cons hd tl ih =>
    cases i with
    | zero => simp
    | succ j => simpa using ih j (by simpa using h)

theorem getD_set_ne (l : List DESEvent) (i j : ℕ) (a d : DESEvent) (h : i ≠ j) :
    (l.set i a).getD j d = l.getD j d := by
  induction l generalizing i j with
  | nil => simp
  | cons hd tl ih =>
    cases i with
    | zero =>
      cases j with
      | zero => exact absurd rfl h
      | succ j2 => simp
    | succ i2 =>
      cases j with
      | zero => simp
      | succ j2 => simpa using ih i2 j2 (by omega)

theorem set_getD_self (l : List DESEvent) (i : ℕ) (d : DESEvent) (h : i < l.length) :
    l.set i (l.getD i d) = l := by
  induction l generalizing i with
  | nil => simp at h
  | cons hd tl ih =>
    cases i with
    | zero => simp
    | succ j => simpa using ih j (by simpa using h)

theorem getD_concat_self (l : List DESEvent) (a d : DESEvent) :
    (l ++ [a]).getD l.length d = a := by
  induction l with
  | nil => simp
  | cons hd tl ih => simpa using ih

theorem msetSet (l : List DESEvent) (i : ℕ) (a d : DESEvent) (h : i < l.length) :
    (↑(l.set i a) : Multiset DESEvent) + {l.getD i d} = ↑l + {a} := by
  induction l generalizing i with
  | nil => simp at h
  | cons hd tl ih =>
    cases i with
    | zero =>
      show (↑(a :: tl) : Multiset DESEvent) + {hd} = ↑(hd :: tl) + {a}
      rw [← Multiset.cons_coe, ← Multiset.cons_coe, ← Multiset.singleton_add,
        ← Multiset.singleton_add]
      abel
    | succ j =>
      have hj : j < tl.length := by simpa using h
      show (↑(hd :: tl.set j a) : Multiset DESEvent) + {tl.getD j d} = ↑(hd :: tl) + {a}
      rw [← Multiset.cons_coe, ← Multiset.cons_coe, Multiset.cons_add, Multiset.cons_add,
        ih j hj]

theorem mset_set_set (l : List DESEvent) (i j : ℕ) (a : DESEvent)
    (hij : i ≠ j) (hi : i < l.length) (hj : j < l.length) :
    (↑((l.set i (l.getD j default)).set j a) : Multiset DESEvent) = ↑(l.set i a) := by
  have hj2 : j < (l.set i (l.getD j default)).length := by simpa using hj
  have e1 := msetSet (l.set i (l.getD j default)) j a default hj2
  rw [getD_set_ne l i j (l.getD j default) default hij] at e1
  have e2 := msetSet l i (l.getD j default) default hi
  have e3 := msetSet l i a default hi
  have e4 : (↑((l.set i (l.getD j default)).set j a) : Multiset DESEvent)
      + ({l.getD j default} + {l.getD i default})
      = ↑(l.set i a) + ({l.getD j default} + {l.getD i default}) := by
    calc (↑((l.set i (l.getD j default)).set j a) : Multiset DESEvent)
        + ({l.getD j default} + {l.getD i default})
        = (↑((l.set i (l.getD j default)).set j a) + {l.getD j default}) + {l.getD i default} := by
          abel
      _ = (↑(l.set i (l.getD j default)) + {a}) + {l.getD i default} := by rw [e1]
      _ = (↑(l.set i (l.getD j default)) + {l.getD i default}) + {a} := by abel
      _ = (↑l + {l.getD j default}) + {a} := by rw [e2]
      _ = (↑l + {a}) + {l.getD j default} := by abel
      _ = (↑(l.set i a) + {l.getD i default}) + {l.getD j default} := by rw [e3]
      _ = ↑(l.set i a) + ({l.getD j default} + {l.getD i default}) := by abel
  exact add_right_cancel e4

theorem mset_siftdownLoop (fuel : ℕ) (heap : List DESEvent) (startpos pos : ℕ)
    (newitem : DESEvent) (h : pos < heap.length) :
    (↑(siftdownLoop fuel heap startpos pos newitem) : Multiset DESEvent)
      = ↑(heap.set pos newitem) := by
  induction fuel generalizing heap pos with
  | zero => rfl
  | succ fuel ih =>
    simp only [siftdownLoop]
    split
    · rename_i hlt
      split
      · have hpl : (pos - 1) / 2 < heap.length := by omega
        rw [ih (heap.set pos (heap.getD ((pos - 1) / 2) default)) ((pos - 1) / 2)
          (by simpa using hpl)]
        exact mset_set_set heap pos ((pos - 1) / 2) newitem (by omega) h hpl
      · rfl
    · rfl

theorem pickChild_bounds (heap : List DESEvent) (endpos childpos : ℕ)
    (h : childpos < endpos) :
    childpos ≤ pickChild heap endpos childpos ∧ pickChild heap endpos childpos < endpos := by
  unfold pickChild
  split
  · rename_i hc; exact ⟨by omega, hc.1⟩
  · exact ⟨le_rfl, h⟩

theorem mset_siftupLoop (fuel : ℕ) (heap : List DESEvent) (endpos pos : ℕ)
    (newitem : DESEvent) (hpos : pos < endpos) (hend : endpos ≤ heap.length) :
    (↑(siftupLoop fuel heap endpos pos newitem).1 : Multiset DESEvent)
        = ↑(heap.set pos newitem)
      ∧ (siftupLoop fuel heap endpos pos newitem).2 < endpos
      ∧ (siftupLoop fuel heap endpos pos newitem).1.length = heap.length
      ∧ (siftupLoop fuel heap endpos pos newitem).1.getD
          (siftupLoop fuel heap endpos pos newitem).2 default = newitem := by
  induction fuel generalizing heap pos with
  | zero =>
    exact ⟨rfl, hpos, by simp [siftupLoop], getD_set_self heap pos newitem default (by omega)⟩
  | succ fuel ih =>
    simp only [siftupLoop]
    split
    · rename_i hc
      have hb := pickChild_bounds heap endpos (2 * pos + 1) hc
      have hcl : pickChild heap endpos (2 * pos + 1) < heap.length := by omega
      have step := ih
        (heap.set pos (heap.getD (pickChild heap endpos (2 * pos + 1)) default))
        (pickChild heap endpos (2 * pos + 1)) hb.2 (by simpa using hend)
      refine ⟨?_, step.2.1, by rw [step.2.2.1]; simp, step.2.2.2⟩
      rw [step.1]
      exact mset_set_set heap pos (pickChild heap endpos (2 * pos + 1)) newitem
        (by omega) (by omega) hcl
    · exact ⟨rfl, hpos, by simp, getD_set_self heap pos newitem default (by omega)⟩

theorem mset_siftup (heap : List DESEvent) (h : 0 < heap.length) :
    (↑(siftup heap 0) : Multiset DESEvent) = ↑heap := by
  have hs := mset_siftupLoop heap.length heap heap.length 0 (heap.getD 0 default) h le_rfl
  have hlen : (siftupLoop heap.length heap heap.length 0 (heap.getD 0 default)).2
      < (siftupLoop heap.length heap heap.length 0 (heap.getD 0 default)).1.length := by
    rw [hs.2.2.1]; exact hs.2.1
  have h2 := set_getD_self (siftupLoop heap.length heap heap.length 0 (heap.getD 0 default)).1
    (siftupLoop heap.length heap heap.length 0 (heap.getD 0 default)).2 default hlen
  rw [hs.2.2.2] at h2
  unfold siftup
  rw [mset_siftdownLoop ((siftupLoop heap.length heap heap.length 0 (heap.getD 0 default)).2 + 1)
    (siftupLoop heap.length heap heap.length 0 (heap.getD 0 default)).1 0
    (siftupLoop heap.length heap heap.length 0 (heap.getD 0 default)).2
    (heap.getD 0 default) hlen, h2, hs.1, set_getD_self heap 0 default h]

theorem mset_heappush (heap : List DESEvent) (item : DESEvent) :
    (↑(heappush heap item) : Multiset DESEvent) = ↑heap + {item} := by
  unfold heappush
  rw [mset_siftdownLoop _ _ _ _ _ (by simp)]
  have hset : (heap ++ [item]).set heap.length item = heap ++ [item] := by
    have h2 := set_getD_self (heap ++ [item]) heap.length default (by simp)
    rwa [getD_concat_self] at h2
  rw [hset, ← Multiset.coe_add, Multiset.coe_singleton]

theorem dropLast_concat_getLastD (l : List DESEvent) (hl : l ≠ []) (d : DESEvent) :
    l.dropLast ++ [l.getLastD d] = l := by
  induction l with
  | nil => exact absurd rfl hl
  | cons a tl ih =>
    cases tl with
    | nil => rfl
    | cons b tl2 => simpa using ih (by simp)

theorem mset_heappop (heap : List DESEvent) (e : DESEvent) (rest2 : List DESEvent)
    (h : heappop heap = some (e, rest2)) :
    e ::ₘ (↑rest2 : Multiset DESEvent) = ↑heap := by
  cases heap with
  | nil => simp [heappop] at h
  | cons hd tl =>
    have hsplit := dropLast_concat_getLastD (hd :: tl) (by simp) default
    rw [heappop] at h
    rcases hrest : (hd :: tl).dropLast with _ | ⟨r0, rtl⟩
    · rw [hrest] at h hsplit
      simp only [Option.some_inj, Prod.mk.injEq] at h
      rw [← h.1, ← h.2, ← hsplit]
      simp
    · rw [hrest] at h hsplit
      simp only [Option.some_inj, Prod.mk.injEq] at h
      have hmem : (↑rest2 : Multiset DESEvent)
          = ↑((r0 :: rtl).set 0 ((hd :: tl).getLastD default)) := by
        rw [← h.2]; exact mset_siftup _ (by simp)
      have hms := msetSet (r0 :: rtl) 0 ((hd :: tl).getLastD default) default (by simp)
      rw [← hsplit, ← Multiset.coe_add, Multiset.coe_singleton, ← hms, h.1, ← hmem,
        ← Multiset.singleton_add]
      abel

theorem heappop_eq_none (heap : List DESEvent) : heappop heap = none ↔ heap = [] := by
  cases heap with
  | nil => simp [heappop]
  | cons hd tl =>
    rw [heappop]
    rcases hrest : (hd :: tl).dropLast with _ | _ <;> simp


theorem schedule_event_some (sim : DiscreteEventSimulator) (d : ℚ) (a : ℕ)
    (s2 : DiscreteEventSimulator) (h : schedule_event sim d a = some s2) :
    s2.executed = sim.executed ∧ s2.current_time = sim.current_time := by
  rw [schedule_event] at h
  split at h
  · cases h; exact ⟨rfl, rfl⟩
  · cases h

theorem scheduleAll_some (l : List (ℚ × ℕ)) (sim s2 : DiscreteEventSimulator)
    (h : scheduleAll sim l = some s2) :
    s2.executed = sim.executed ∧ s2.current_time = sim.current_time := by
  induction l generalizing sim with
  | nil => cases h; exact ⟨rfl, rfl⟩
  | cons p rest ih =>
    rw [scheduleAll] at h
    rcases hs : schedule_event sim p.1 p.2 with _ | s1
    · rw [hs] at h; cases h
    · rw [hs] at h
      have h1 := schedule_event_some sim p.1 p.2 s1 hs
      have h2 := ih s1 h
      exact ⟨h2.1.trans h1.1, h2.2.trans h1.2⟩

/-! ## Claim theorems: scheduler (C1, C5, C10) -/

/-- Claim C1 (code evaluated at the failing input): four events scheduled at
the same time `1.0` and enqueued with sequence numbers 0, 1, 2, 3 are executed
by the run loop in order 0, 2, 1, 3 — not in insertion (FIFO) order —
because `DESEvent`'s generated comparison ignores `seq`
(`field(compare=False)`) and the binary heap is not insertion-stable: the
comparison the code performs (`eventLt`) differs from the lexicographic
`(time, seq)` comparison the claim describes (`eventLtSpecLex`) already on
two equal-time events. -/
theorem c1_equal_time_events_not_fifo :
    fifoProbeSim.map (fun s => s.executed.map DESEvent.seq) = some [0, 2, 1, 3]
    ∧ eventLt ⟨1, 0, 0⟩ ⟨1, 1, 1⟩ = false
    ∧ eventLtSpecLex ⟨1, 0, 0⟩ ⟨1, 1, 1⟩ = true := by
  refine ⟨by decide, by decide, by decide⟩

/-- Claim C5: when `run()` is invoked with no time bound and the loop finishes
(any fuel that suffices), the queue is empty at exit and the (spec-modelled)
`end_time` equals `current_time`, which is the time of the last executed event
(or the starting clock if nothing ran); conversely an empty queue makes the
loop finish at once.  `runAux ... = some sim2` states that the Python `while`
loop terminated with final state `sim2`. -/
theorem c5_run_no_bound (env : ActionEnv) (fuel : ℕ) (sim : DiscreteEventSimulator) :
    (∀ sim2, runAux env none fuel sim = some sim2 →
      sim2.event_queue = [] ∧ sim2.end_time = some sim2.current_time
        ∧ ((sim2.executed.getLast? = sim.executed.getLast?
              ∧ sim2.current_time = sim.current_time)
            ∨ ∃ e, sim2.executed.getLast? = some e ∧ sim2.current_time = e.time))
    ∧ (sim.event_queue = [] → 1 ≤ fuel →
        runAux env none fuel sim = some { sim with end_time := some sim.current_time }) := by
  induction fuel generalizing sim with
  | zero =>
    constructor
    · intro sim2 h; simp [runAux] at h
    · intro _ h2; exact absurd h2 (by omega)
  | succ fuel ih =>
    constructor
    · intro sim2 h
      rw [runAux] at h
      rcases hp : heappop sim.event_queue with _ | ⟨e, rest⟩
      · simp only [hp] at h
        have hq := (heappop_eq_none sim.event_queue).mp hp
        have h2 : ({ sim with end_time := some sim.current_time } : DiscreteEventSimulator)
            = sim2 := by
          exact Option.some_inj.mp h
        rw [← h2]
        exact ⟨hq, rfl, Or.inl ⟨rfl, rfl⟩⟩
      · simp only [hp] at h
        rcases hs : scheduleAll { sim with
            event_queue := rest,
            current_time := e.time,
            executed := sim.executed ++ [e] } (env e.act) with _ | s2
        · simp only [hs] at h
          exact Option.noConfusion h
        · simp only [hs] at h
          have h2 : runAux env none fuel s2 = some sim2 := h
          obtain ⟨hq, het, htr⟩ := (ih s2).1 sim2 h2
          have hpres := scheduleAll_some _ _ _ hs
          refine ⟨hq, het, Or.inr ?_⟩
          rcases htr with ⟨hlast, hct⟩ | ⟨e2, hlast, hct⟩
          · exact ⟨e, by rw [hlast, hpres.1]; simp, by rw [hct, hpres.2]⟩
          · exact ⟨e2, hlast, hct⟩
    · intro hq _
      rw [runAux, hq]
      rfl

/-- Witness for C5 at a concrete two-event queue. -/
theorem c5_run_no_bound_witness :
    runAux inertEnv none 3 simTwoEvents = some simTwoEventsFinal
    ∧ (simTwoEventsFinal.event_queue = []
        ∧ simTwoEventsFinal.end_time = some simTwoEventsFinal.current_time
        ∧ ((simTwoEventsFinal.executed.getLast? = simTwoEvents.executed.getLast?
              ∧ simTwoEventsFinal.current_time = simTwoEvents.current_time)
            ∨ ∃ e, simTwoEventsFinal.executed.getLast? = some e
                ∧ simTwoEventsFinal.current_time = e.time)) :=
  ⟨by decide, (c5_run_no_bound inertEnv 3 simTwoEvents).1 simTwoEventsFinal (by decide)⟩

/-- Claim C10: when `run(until=u)` dequeues an event whose time exceeds `u`,
it re-enqueues that exact event, sets `current_time` to exactly `u` and stops
(the returned state shows `executed`, `seq_counter` and `end_time` untouched,
so a later `run` resumes from clock `u`), and the queue after the
re-enqueue is a permutation of the queue before the dequeue — no event is
lost. -/
theorem c10_run_until_requeues (env : ActionEnv) (fuel : ℕ)
    (sim : DiscreteEventSimulator) (u : ℚ) (e : DESEvent) (rest : List DESEvent)
    (hpop : heappop sim.event_queue = some (e, rest)) (hu : u < e.time) :
    runAux env (some u) (fuel + 1) sim
      = some { sim with event_queue := heappush rest e, current_time := u }
    ∧ (heappush rest e).Perm sim.event_queue := by
  constructor
  · rw [runAux, hpop]
    simp [hu]
  · have h1 := mset_heappush rest e
    have h2 := mset_heappop sim.event_queue e rest hpop
    rw [← Multiset.coe_eq_coe, h1, ← h2, ← Multiset.singleton_add]
    abel

/-- Witness for C10: a single event at time 3 against the bound `u = 2`. -/
theorem c10_run_until_requeues_witness :
    heappop simLateEvent.event_queue = some (⟨3, 0, 0⟩, [])
    ∧ ((2 : ℚ) < (3 : ℚ))
    ∧ (runAux inertEnv (some 2) 1 simLateEvent
        = some { simLateEvent with event_queue := heappush [] ⟨3, 0, 0⟩, current_time := 2 }
      ∧ (heappush [] ⟨3, 0, 0⟩).Perm simLateEvent.event_queue) :=
  ⟨by decide, by decide,
    c10_run_until_requeues inertEnv 0 simLateEvent 2 ⟨3, 0, 0⟩ [] (by decide) (by decide)⟩

/-! ## Claim theorems: link serialization (C2) -/

/-- Claim C2: `Link.transmit(message, sender)` at scheduler time `now`, with
`dir` the sender-relative direction, starts at
`start = max(now, next_available_time[dir])`, writes
`start + size_bytes * 8 / bandwidth_bps` back to `next_available_time[dir]`
(the opposite direction untouched), and schedules delivery to the opposite
endpoint at absolute time `start + size_bytes * 8 / bandwidth_bps +
propagation_time`; on a 1e3-bps link with 0.01 s propagation, two
500000-byte sends both issued at `t = 0.1` in the same direction arrive at
`t = 4000.11` and `t = 8000.11`. -/
theorem c2_link_transmit_serialization (l : Link) (message : Message) (sender : ℕ)
    (now : ℚ) (n1 n2 : ℕ) (h1 : l.node1 = some n1) (h2 : l.node2 = some n2)
    (hs : sender = n1 ∨ sender = n2) (hf : l.failed = false) :
    (∃ l2 delay dst, l.transmit message sender now = some (l2, delay, dst)
      ∧ l2.nextAvailAt (if sender = n1 then 0 else 1)
          = max now (l.nextAvailAt (if sender = n1 then 0 else 1))
            + (message.size_bytes : ℚ) * 8 / l.bandwidth_bps
      ∧ l2.nextAvailAt (if sender = n1 then 1 else 0)
          = l.nextAvailAt (if sender = n1 then 1 else 0)
      ∧ now + delay
          = max now (l.nextAvailAt (if sender = n1 then 0 else 1))
            + (message.size_bytes : ℚ) * 8 / l.bandwidth_bps + l.propagation_time
      ∧ dst = (if sender = n1 then n2 else n1))
    ∧ (slowLink.transmit msgProbe 1 (1 / 10) = some (slowLinkAfterOne, 400001 / 100, 2)
      ∧ slowLinkAfterOne.transmit msgProbe 1 (1 / 10)
          = some (slowLinkAfterTwo, 800001 / 100, 2)
      ∧ (1 : ℚ) / 10 + 400001 / 100 = 400011 / 100
      ∧ (1 : ℚ) / 10 + 800001 / 100 = 800011 / 100) := by
  constructor
  · simp only [Link.transmit, h1, h2]
    rw [if_pos hs]
    rw [hf]
    simp only [Bool.false_eq_true, if_false]
    by_cases hsn : sender = n1
    · refine ⟨_, _, _, rfl, ?_, ?_, ?_, ?_⟩
      · simp [hsn, Link.nextAvailAt, Link.setAvailAt]
      · simp [hsn, Link.nextAvailAt, Link.setAvailAt]
      · simp [hsn]
      · simp [hsn]
    · refine ⟨_, _, _, rfl, ?_, ?_, ?_, ?_⟩
      · simp [hsn, Link.nextAvailAt, Link.setAvailAt]
      · simp [hsn, Link.nextAvailAt, Link.setAvailAt]
      · simp [hsn]
      · simp [hsn]
  · refine ⟨?_, ?_, by norm_num, by norm_num⟩
    · norm_num [Link.transmit, slowLink, slowLinkAfterOne, msgProbe,
        Link.nextAvailAt, Link.setAvailAt, max_def]
    · norm_num [Link.transmit, slowLink, slowLinkAfterOne, slowLinkAfterTwo, msgProbe,
        Link.nextAvailAt, Link.setAvailAt, max_def]

/-- Witness for C2: the 1e3-bps, 0.01-s link of the hsh scenario with a
500000-byte message sent by endpoint 1 at `t = 0.1`. -/
theorem c2_link_transmit_serialization_witness :
    slowLink.node1 = some 1 ∧ slowLink.node2 = some 2 ∧ ((1 : ℕ) = 1 ∨ (1 : ℕ) = 2)
    ∧ slowLink.failed = false
    ∧ (∃ l2 delay dst, slowLink.transmit msgProbe 1 (1 / 10) = some (l2, delay, dst)
        ∧ l2.nextAvailAt (if (1 : ℕ) = 1 then 0 else 1)
            = max (1 / 10 : ℚ) (slowLink.nextAvailAt (if (1 : ℕ) = 1 then 0 else 1))
              + (msgProbe.size_bytes : ℚ) * 8 / slowLink.bandwidth_bps
        ∧ l2.nextAvailAt (if (1 : ℕ) = 1 then 1 else 0)
            = slowLink.nextAvailAt (if (1 : ℕ) = 1 then 1 else 0)
        ∧ (1 / 10 : ℚ) + delay
            = max (1 / 10 : ℚ) (slowLink.nextAvailAt (if (1 : ℕ) = 1 then 0 else 1))
              + (msgProbe.size_bytes : ℚ) * 8 / slowLink.bandwidth_bps
              + slowLink.propagation_time
        ∧ dst = (if (1 : ℕ) = 1 then 2 else 1)) :=
  ⟨rfl, rfl, Or.inl rfl, rfl,
    (c2_link_transmit_serialization slowLink msgProbe 1 (1 / 10) 1 2 rfl rfl
      (Or.inl rfl) rfl).1⟩

/-! ## Claim theorems: forwarding (C3, C4, C6) -/

/-- Membership in the lost-mode candidate list exposes the defining
conditions: an attached, non-failed link whose seen set misses the id. -/
theorem mem_lostCandidates (node : NetworkNode) (message : Message) (p : ℕ)
    (h : p ∈ lostCandidates node message) :
    ∃ pl ∈ node.ports_to_links, pl.1 = p ∧ pl.2.failed = false
      ∧ message.id ∉ node.port_to_messages_passed p := by
  rw [lostCandidates] at h
  obtain ⟨pl, hpl, hfst⟩ := List.mem_map.mp h
  obtain ⟨hin, hcond⟩ := List.mem_filter.mp hpl
  simp only [Bool.and_eq_true, Bool.not_eq_true', decide_eq_false_iff_not] at hcond
  exact ⟨pl, hin, hfst, hcond.2, hfst ▸ hcond.1⟩

/-- Claim C3: in lost mode, with candidates the ports whose link is not
failed and whose seen set does not hold the message id: an empty candidate
set drops the message and transmits nothing; otherwise one candidate port is
selected (whatever `random.sample` picks), the message id enters that port's
seen set, and the message is transmitted on that port's (non-failed) link;
and when normal LPM routing selects a port whose seen set already holds the
message id, the node flags the message lost and falls back to exactly this
lost-mode routing. -/
theorem c3_lost_mode_routing (choose : List ℕ → ℕ) (h : String → ℕ)
    (hchoose : ∀ l : List ℕ, l ≠ [] → choose l ∈ l)
    (node : NetworkNode) (message : Message) :
    (lostCandidates node message = [] →
      handle_lost_message choose node message
        = (node, { message with dropped := true }, none))
    ∧ (lostCandidates node message ≠ [] →
        choose (lostCandidates node message) ∈ lostCandidates node message
        ∧ (∃ pl ∈ node.ports_to_links, pl.1 = choose (lostCandidates node message)
            ∧ pl.2.failed = false
            ∧ message.id ∉ node.port_to_messages_passed (choose (lostCandidates node message)))
        ∧ handle_lost_message choose node message
            = ({ node with port_to_messages_passed := fun q =>
                    if q = choose (lostCandidates node message) then
                      insert message.id (node.port_to_messages_passed q)
                    else node.port_to_messages_passed q },
                message, some (choose (lostCandidates node message))))
    ∧ (∀ ft, message.five_tuple = some ft →
        relevantPortsFor node ft.dst_ip ≠ [] →
        message.id ∈ node.port_to_messages_passed (ecmpSelect h node ft) →
        handle_regular_message choose h node message
          = some (handle_lost_message choose node { message with lost := true })) := by
  refine ⟨?_, ?_, ?_⟩
  · intro hc
    simp only [handle_lost_message, hc]
  · intro hc
    have hmem := hchoose _ hc
    refine ⟨hmem, mem_lostCandidates node message _ hmem, ?_⟩
    rcases hl : lostCandidates node message with _ | ⟨a, t⟩
    · exact absurd hl hc
    · simp only [handle_lost_message, hl]
  · intro ft hft hrel hseen
    rcases hr : relevantPortsFor node ft.dst_ip with _ | ⟨a, t⟩
    · exact absurd hr hrel
    · simp only [handle_regular_message, hft, hr]
      rw [if_pos hseen]

/-- Witness for C3: a lost message at a node with one healthy and one failed
port; the candidate list is exactly `[1]`. -/
theorem c3_lost_mode_routing_witness :
    (∀ l : List ℕ, l ≠ [] → headChoose l ∈ l)
    ∧ lostCandidates nodeProbe msgLost ≠ []
    ∧ (headChoose (lostCandidates nodeProbe msgLost) ∈ lostCandidates nodeProbe msgLost
        ∧ (∃ pl ∈ nodeProbe.ports_to_links,
              pl.1 = headChoose (lostCandidates nodeProbe msgLost)
            ∧ pl.2.failed = false
            ∧ msgLost.id ∉ nodeProbe.port_to_messages_passed
                (headChoose (lostCandidates nodeProbe msgLost)))
        ∧ handle_lost_message headChoose nodeProbe msgLost
            = ({ nodeProbe with
                  port_to_messages_passed := fun q =>
                    if q = headChoose (lostCandidates nodeProbe msgLost) then
                      insert msgLost.id (nodeProbe.port_to_messages_passed q)
                    else nodeProbe.port_to_messages_passed q },
                msgLost, some (headChoose (lostCandidates nodeProbe msgLost)))) :=
  ⟨fun l hl => by
      cases l with
      | nil => exact absurd rfl hl
      | cons a t => exact List.mem_cons_self a t,
    by decide,
    (c3_lost_mode_routing headChoose zeroHash
        (fun l hl => by
          cases l with
          | nil => exact absurd rfl hl
          | cons a t => exact List.mem_cons_self a t)
        nodeProbe msgLost).2.1 (by decide)⟩

/-- Claim C4: for a non-empty ECMP group the selected port is the group entry
at index `hash(five_tuple) mod group size`; the selection is a function of
the digest and the five-tuple contents alone (equal five-tuples select equal
ports, independent of message id), and a message whose id has not traversed
the selected port is transmitted on exactly that port by normal routing. -/
theorem c4_ecmp_hash_selection (h : String → ℕ) (node : NetworkNode) (ft : FiveTuple)
    (hne : ecmpGroup node ft.dst_ip ≠ []) :
    ecmpSelect h node ft
      = ((ecmpGroup node ft.dst_ip).getD
          (fiveTupleHash h ft % (ecmpGroup node ft.dst_ip).length) (0, 0)).1
    ∧ (∀ ft2 : FiveTuple, ft2 = ft → ecmpSelect h node ft2 = ecmpSelect h node ft)
    ∧ (∀ message : Message, message.five_tuple = some ft →
        message.id ∉ node.port_to_messages_passed (ecmpSelect h node ft) →
        ∀ choose, handle_regular_message choose h node message
          = some ({ node with port_to_messages_passed := fun q =>
                      if q = ecmpSelect h node ft then
                        insert message.id (node.port_to_messages_passed q)
                      else node.port_to_messages_passed q },
                  message, some (ecmpSelect h node ft))) := by
  refine ⟨rfl, fun ft2 hft2 => by rw [hft2], ?_⟩
  intro message hft hnot choose
  rcases hr : relevantPortsFor node ft.dst_ip with _ | ⟨a, t⟩
  · exact absurd (by simp [ecmpGroup, hr]) hne
  · simp only [handle_regular_message, hft, hr]
    rw [if_neg hnot]

/-- Witness for C4: the ECMP group `10.0.0.0/8 → [1, 1]` of `nodeRouted` for
destination `10.1.1.2`. -/
theorem c4_ecmp_hash_selection_witness :
    ecmpGroup nodeRouted ftProbe.dst_ip ≠ []
    ∧ (ecmpSelect zeroHash nodeRouted ftProbe
        = ((ecmpGroup nodeRouted ftProbe.dst_ip).getD
            (fiveTupleHash zeroHash ftProbe
              % (ecmpGroup nodeRouted ftProbe.dst_ip).length) (0, 0)).1
      ∧ (∀ ft2 : FiveTuple, ft2 = ftProbe →
          ecmpSelect zeroHash nodeRouted ft2 = ecmpSelect zeroHash nodeRouted ftProbe)
      ∧ (∀ message : Message, message.five_tuple = some ftProbe →
          message.id ∉ nodeRouted.port_to_messages_passed
            (ecmpSelect zeroHash nodeRouted ftProbe) →
          ∀ choose, handle_regular_message choose zeroHash nodeRouted message
            = some ({ nodeRouted with
                        port_to_messages_passed := fun q =>
                          if q = ecmpSelect zeroHash nodeRouted ftProbe then
                            insert message.id (nodeRouted.port_to_messages_passed q)
                          else nodeRouted.port_to_messages_passed q },
                    message, some (ecmpSelect zeroHash nodeRouted ftProbe)))) :=
  ⟨by decide, c4_ecmp_hash_selection zeroHash nodeRouted ftProbe (by decide)⟩

/-- Claim C6 is false as stated: at a node with an empty forwarding table, a
fresh, non-expired, non-lost message is dropped (nothing transmitted, no
exception) by the route-miss branch — so "dropped iff expired" fails in the
right-to-left direction. -/
theorem c6_drop_without_expiry_counterexample :
    (internal_send_ip headChoose zeroHash 0 nodeProbe msgProbe).map
        (fun r => (r.2.1.dropped, r.2.2)) = some (true, none)
    ∧ msgProbe.is_expired 0 nodeProbe.max_path = false := by
  have hexp : msgProbe.is_expired 0 nodeProbe.max_path = false := by
    simp only [Message.is_expired, msgProbe, nodeProbe, Bool.or_eq_false_iff,
      decide_eq_false_iff_not]
    norm_num
  have h1 : msgProbe.dropped = false := rfl
  have h2 : msgProbe.lost = false := rfl
  have h3 : msgProbe.five_tuple = some ftProbe := rfl
  have h4 : relevantPortsFor nodeProbe ftProbe.dst_ip = [] := rfl
  have hsend : internal_send_ip headChoose zeroHash 0 nodeProbe msgProbe
      = some (nodeProbe, { msgProbe with dropped := true }, none) := by
    simp [internal_send_ip, h1, h2, hexp, handle_regular_message, h3, h4]
  refine ⟨?_, hexp⟩
  rw [hsend]
  rfl

/-- Claim C6 (amended): for a non-dropped message the expiry check runs first:
an expired message is dropped with nothing transmitted and no exception
raised, before lost-mode and before LPM routing; a non-expired message
proceeds to lost-mode or normal routing (which may still drop it for route
miss or lost-mode exhaustion). -/
theorem c6_expiry_checked_first (choose : List ℕ → ℕ) (h : String → ℕ) (now : ℚ)
    (node : NetworkNode) (message : Message) (hd : message.dropped = false) :
    (message.is_expired now node.max_path = true →
      internal_send_ip choose h now node message
        = some (node, { message with dropped := true }, none))
    ∧ (message.is_expired now node.max_path = false →
      internal_send_ip choose h now node message
        = if message.lost then some (handle_lost_message choose node message)
          else handle_regular_message choose h node message) := by
  constructor <;> intro hexp <;>
    simp [internal_send_ip, handle_expired_message, hd, hexp]

/-- Witness for the amended C6 at a concrete node and message. -/
theorem c6_expiry_checked_first_witness :
    msgProbe.dropped = false
    ∧ ((msgProbe.is_expired 3000 nodeProbe.max_path = true →
          internal_send_ip headChoose zeroHash 3000 nodeProbe msgProbe
            = some (nodeProbe, { msgProbe with dropped := true }, none))
      ∧ (msgProbe.is_expired 3000 nodeProbe.max_path = false →
          internal_send_ip headChoose zeroHash 3000 nodeProbe msgProbe
            = if msgProbe.lost then some (handle_lost_message headChoose nodeProbe msgProbe)
              else handle_regular_message headChoose zeroHash nodeProbe msgProbe)) :=
  ⟨rfl, c6_expiry_checked_first headChoose zeroHash 3000 nodeProbe msgProbe rfl⟩

/-! ## Claim theorems: host send (C7) -/

/-- Claim C7 (spec-modelled `Host.send_to_ip`): the constructed message has
`sender_id = ""`, `five_tuple = (host_ip, dst_ip, 0, 0, TCP)`, the given
`size_bytes`, `brith_time = now`, `content = payload`, `ttl = 2000` and
`path_length = 1`; the ledger after the call is the old ledger with the
message appended, it is computed before the forwarding routine runs, and the
forwarding output is exactly `internal_send_ip` applied to that message. -/
theorem c7_host_send_to_ip_fields (choose : List ℕ → ℕ) (h : String → ℕ)
    (host : NetworkNode) (host_name : String) (host_ip : IPAddress) (verbose : Bool)
    (packet_id : ℕ) (now : ℚ) (ledger : List Message) (dst_ip : IPAddress)
    (payload : String) (size_bytes : ℕ) :
    let r := Host.send_to_ip choose h host host_name host_ip verbose packet_id now
      ledger dst_ip payload size_bytes
    r.1.sender_id = ""
    ∧ r.1.five_tuple = some ⟨host_ip, dst_ip, 0, 0, Protocol.TCP⟩
    ∧ r.1.size_bytes = size_bytes
    ∧ r.1.brith_time = now
    ∧ r.1.content = payload
    ∧ r.1.ttl = 2000
    ∧ r.1.id = packet_id
    ∧ r.1.path_length = 1
    ∧ r.2.1 = ledger ++ [r.1]
    ∧ r.2.2 = internal_send_ip choose h now host r.1 := by
  exact ⟨rfl, rfl, rfl, rfl, rfl, rfl, rfl, rfl, rfl, rfl⟩

/-! ## Claim theorems: node inbox (C8) -/

/-- Every drain of pending handle events processes a prefix of the inbox, in
order (each invocation pops at most the head). -/
theorem drainHandles_take (fuel : ℕ) (st : NodeState) (pending : ℕ) :
    ∃ k, (drainHandles fuel st pending).2.1 = st.inbox.take k := by
  induction fuel generalizing st pending with
  | zero => exact ⟨0, by simp [drainHandles]⟩
  | succ fuel ih =>
    cases pending with
    | zero => exact ⟨0, by simp [drainHandles]⟩
    | succ p =>
      cases hin : st.inbox with
      | nil =>
        obtain ⟨k, hk⟩ := ih st p
        refine ⟨0, ?_⟩
        simp only [drainHandles, NodeState.handle_message, hin]
        simp only [hin] at hk
        simp [hk]
      | cons m rest =>
        obtain ⟨k, hk⟩ := ih { st with inbox := rest } (p + if rest.isEmpty then 0 else 1)
        refine ⟨k + 1, ?_⟩
        simp only [drainHandles, NodeState.handle_message, hin]
        simp only at hk
        simpa using hk

/-- Claim C8 is false as stated: two messages posted at the same instant make
the code schedule three handle events in total (one per post, one rescheduled
by the first handle); only two invocations pop a message, so the third pops
nothing — a handle invocation on an empty inbox is a no-op rather than
"popping exactly the head". -/
theorem c8_extra_handle_pops_nothing_counterexample :
    (drainHandles 9 nodeStatePosted 2).2.2 = 3
    ∧ (drainHandles 9 nodeStatePosted 2).2.1 = [msgA, msgB]
    ∧ NodeState.handle_message { name := "n", verbose := false, inbox := [] }
        = ({ name := "n", verbose := false, inbox := [] }, none, 0) :=
  ⟨by decide, by decide, rfl⟩

/-- Claim C8 (amended, spec-modelled `Node.post`): `post` appends the message
to the inbox and schedules exactly one delay-0 handle, leaving every message
field unchanged except possibly `verbose_path`; a handle invocation on a
non-empty inbox pops exactly the head, hands it to `on_message`, and
schedules another delay-0 handle iff messages remain, while an invocation on
an empty inbox does nothing; consequently any sequence of handle invocations
processes a prefix of the inbox in posted (FIFO) order, one message per
invocation at most. -/
theorem c8_post_handle_fifo (st : NodeState) (message : Message) :
    ((st.post message).2 = 1
      ∧ (∃ m2, (st.post message).1.inbox = st.inbox ++ [m2]
          ∧ m2.id = message.id ∧ m2.sender_id = message.sender_id
          ∧ m2.five_tuple = message.five_tuple ∧ m2.size_bytes = message.size_bytes
          ∧ m2.brith_time = message.brith_time ∧ m2.content = message.content
          ∧ m2.ttl = message.ttl ∧ m2.path_length = message.path_length
          ∧ m2.delivered = message.delivered ∧ m2.dropped = message.dropped
          ∧ m2.lost = message.lost ∧ m2.arrival_time = message.arrival_time
          ∧ (st.verbose = false → m2 = message)))
    ∧ (∀ m rest, st.inbox = m :: rest →
        st.handle_message
          = ({ st with inbox := rest }, some m, if rest.isEmpty then 0 else 1))
    ∧ (st.inbox = [] → st.handle_message = (st, none, 0))
    ∧ (∀ fuel pending, ∃ k, (drainHandles fuel st pending).2.1 = st.inbox.take k) := by
  refine ⟨⟨rfl, ?_⟩, ?_, ?_, fun fuel pending => drainHandles_take fuel st pending⟩
  · by_cases hv : st.verbose
    · exact ⟨{ message with verbose_path := message.verbose_path ++ [st.name] },
        by simp [NodeState.post, hv], rfl, rfl, rfl, rfl, rfl, rfl, rfl, rfl, rfl, rfl,
        rfl, rfl, fun hb => absurd hv (by simp [hb])⟩
    · exact ⟨message, by simp [NodeState.post, hv], rfl, rfl, rfl, rfl, rfl, rfl, rfl,
        rfl, rfl, rfl, rfl, rfl, fun _ => rfl⟩
  · intro m rest hin
    simp [NodeState.handle_message, hin]
  · intro hin
    simp [NodeState.handle_message, hin]

/-- Witness for the amended C8 at a concrete node with inbox `[msgA, msgB]`. -/
theorem c8_post_handle_fifo_witness :
    nodeStatePosted.inbox = msgA :: [msgB]
    ∧ nodeStatePosted.handle_message
        = ({ nodeStatePosted with inbox := [msgB] }, some msgA,
            if ([msgB] : List Message).isEmpty then 0 else 1) :=
  ⟨by decide,
    (c8_post_handle_fifo nodeStatePosted msgProbe).2.1 msgA [msgB] (by decide)⟩

/-! ## Claim theorems: route installation (C9) -/

/-- A port found in an appended table entry is the newly installed port or
was already registered. -/
theorem tableAppend_mem (k : PrefixStr) (p x : ℕ) :
    ∀ (t : List (PrefixStr × List ℕ)) (e : PrefixStr × List ℕ),
      e ∈ tableAppend t k p → x ∈ e.2 → x = p ∨ ∃ e2 ∈ t, x ∈ e2.2 := by
  intro t
  induction t with
  | nil =>
    intro e he hx
    simp [tableAppend] at he
    rw [he] at hx
    simp at hx
    exact Or.inl hx
  | cons a rest ih =>
    intro e he hx
    rw [tableAppend] at he
    split at he
    · rcases List.mem_cons.mp he with h1 | h2
      · rw [h1] at hx
        rcases List.mem_append.mp hx with hx1 | hx2
        · exact Or.inr ⟨a, List.mem_cons_self a rest, hx1⟩
        · exact Or.inl (by simpa using hx2)
      · exact Or.inr ⟨e, List.mem_cons_of_mem a h2, hx⟩
    · rcases List.mem_cons.mp he with h1 | h2
      · exact Or.inr ⟨a, List.mem_cons_self a rest, h1 ▸ hx⟩
      · rcases ih e h2 hx with h | ⟨e2, he2, hx2⟩
        · exact Or.inl h
        · exact Or.inr ⟨e2, List.mem_cons_of_mem a he2, hx2⟩

/-- A successful `set_ip_routing` call leaves the port map unchanged and
preserves the no-failed-route invariant. -/
theorem set_ip_routing_preserves (node node2 : NetworkNode) (k : PrefixStr) (p : ℕ)
    (h : set_ip_routing node k p = some node2) :
    node2.ports_to_links = node.ports_to_links ∧ (routesOk node → routesOk node2) := by
  rw [set_ip_routing] at h
  rcases hl : node.ports_to_links.lookup p with _ | link
  · simp only [hl] at h
    exact Option.noConfusion h
  · simp only [hl] at h
    split at h
    · have h2 : node = node2 := Option.some_inj.mp h
      rw [← h2]
      exact ⟨rfl, id⟩
    · rename_i hnf
      have h2 : ({ node with ip_forward_table := tableAppend node.ip_forward_table k p }
          : NetworkNode) = node2 := Option.some_inj.mp h
      rw [← h2]
      refine ⟨rfl, ?_⟩
      intro hok e he x hx
      rcases tableAppend_mem k p x node.ip_forward_table e he hx with h3 | ⟨e2, he2, hx2⟩
      · rw [h3]
        exact ⟨link, hl, by simpa using hnf⟩
      · exact hok e2 he2 x hx2

/-- `installAll` preserves the no-failed-route invariant. -/
theorem installAll_routesOk (rs : List (PrefixStr × ℕ)) (node node2 : NetworkNode)
    (hok : routesOk node) (h : installAll node rs = some node2) : routesOk node2 := by
  induction rs generalizing node with
  | nil =>
    rw [installAll] at h
    rw [← Option.some_inj.mp h]
    exact hok
  | cons r rest ih =>
    rw [installAll] at h
    rcases hs : set_ip_routing node r.1 r.2 with _ | n2
    · simp only [hs] at h
      exact Option.noConfusion h
    · simp only [hs] at h
      have hp := set_ip_routing_preserves node n2 r.1 r.2 hs
      exact ih n2 (hp.2 hok) h

/-- Claim C9: installing a route to a port whose attached link is failed
leaves the forwarding table unchanged (silently skipped, no exception —
`set_ip_routing` returns the node as it was), and starting from any node
satisfying the invariant (in particular an empty table, as after link
creation and before route installation) any sequence of installations
preserves it: no forwarding-table entry refers to a port whose link is
failed. -/
theorem c9_failed_ports_never_installed (node : NetworkNode) :
    (∀ ip_pfx port_id link, node.ports_to_links.lookup port_id = some link →
      link.failed = true → set_ip_routing node ip_pfx port_id = some node)
    ∧ (∀ rs node2, routesOk node → installAll node rs = some node2 → routesOk node2) := by
  constructor
  · intro ip_pfx port_id link hl hf
    simp [set_ip_routing, hl, hf]
  · intro rs node2 hok hins
    exact installAll_routesOk rs node node2 hok hins

/-- Witness for C9: installing `10.0.0.0/8` on the failed port 2 is a no-op,
and the full installation sequence leaves only the healthy port 1 in the
table, satisfying the invariant. -/
theorem c9_failed_ports_never_installed_witness :
    nodeProbe.ports_to_links.lookup 2 = some failedLink
    ∧ failedLink.failed = true
    ∧ set_ip_routing nodeProbe routeProbe 2 = some nodeProbe
    ∧ routesOk nodeProbe
    ∧ installAll nodeProbe rsProbe = some nodeInstalled
    ∧ routesOk nodeInstalled :=
  ⟨rfl, rfl,
    (c9_failed_ports_never_installed nodeProbe).1 routeProbe 2 failedLink rfl rfl,
    by simp [routesOk, nodeProbe],
    rfl,
    (c9_failed_ports_never_installed nodeProbe).2 rsProbe nodeInstalled
      (by simp [routesOk, nodeProbe]) rfl⟩
